import Mathlib

/-!
A shallow embedding of the synthetic-data export engine in `src/lib.rs`
(types `Column`, `Table`, `ExportFile` and their methods), together with
theorems checking the specification's claims against it.

Modelling conventions:
* `u64` values are `Nat`; `rust_decimal::Decimal` values are `ℚ` with exact
  arithmetic (the spec stipulates exact decimal arithmetic); `Decimal::to_u64`
  truncation is `toU64` below, returning `none` for negative values and values
  whose floor exceeds `2 ^ 64 - 1`.
* A Rust `Result<T>` is `Except String T`; an operation that can also panic
  (integer division by zero) returns `RResult`, whose `panic` constructor
  models the panic.
* Column generators are `fn() -> Result<String>` pointers that the spec
  declares pure and deterministic, so a generator is modelled by the
  `Except String String` value every call returns.
* Rayon's order-preserving fork-join reductions are modelled sequentially by
  `tryJoinE` / `tryJoinR` / `collectE`; the split-and-merge trees themselves
  are modelled by `SplitTree` for the determinism claim.
-/

deriving instance DecidableEq for Except

/-- Result of a Rust computation that may panic (constructor `panic`),
return `Err` (constructor `error`) or return `Ok` (constructor `ok`). -/
inductive RResult (ε : Type) (α : Type) where
  | panic : RResult ε α
  | error : ε → RResult ε α
  | ok : α → RResult ε α
deriving DecidableEq

/-- Lift an ordinary `Result` into `RResult` (such code never panics). -/
def liftE {ε α : Type} : Except ε α → RResult ε α
  | .error e => .error e
  | .ok a => .ok a

/-- Model of `collect::<Result<Vec<_>>>()`: gather the values, short-circuiting
at the first `Err` in iteration order. -/
def collectE {ε α : Type} : List (Except ε α) → Except ε (List α)
  | [] => .ok []
  | x :: xs =>
    match x with
    | .error e => .error e
    | .ok a =>
      match collectE xs with
      | .error e => .error e
      | .ok rest => .ok (a :: rest)

/-- Model of rayon's `try_reduce(|| "", |x, y| Ok(x + y))` over `Result`
items taken in index order: concatenate the `Ok` strings, short-circuiting
at the first `Err`. -/
def tryJoinE : List (Except String String) → Except String String
  | [] => .ok ""
  | x :: xs =>
    match x with
    | .error e => .error e
    | .ok a => Except.map (fun rest => a ++ rest) (tryJoinE xs)

/-- Map over the value of a panic-aware result. -/
def RResult.map {ε α β : Type} (f : α → β) : RResult ε α → RResult ε β
  | .panic => .panic
  | .error e => .error e
  | .ok a => .ok (f a)

/-- Same order-preserving try-reduce, for item computations that may panic. -/
def tryJoinR : List (RResult String String) → RResult String String
  | [] => .ok ""
  | x :: xs =>
    match x with
    | .panic => .panic
    | .error e => .error e
    | .ok a => RResult.map (fun rest => a ++ rest) (tryJoinR xs)

/-- Model of Rust's `Vec::join(sep)`: the separator is inserted between
consecutive elements. -/
def joinSep (sep : String) : List String → String
  | [] => ""
  | [x] => x
  | x :: y :: xs => x ++ sep ++ joinSep sep (y :: xs)

/-- Plain concatenation `reduce(|| "", |a, b| a + b)` over strings. -/
def concatStrings : List String → String
  | [] => ""
  | x :: xs => x ++ concatStrings xs

/-- Model of `rust_decimal`'s `Decimal::to_u64`: truncate toward zero and
fail on negative values or values that do not fit in a `u64`. -/
def toU64 (q : ℚ) : Option Nat :=
  if 0 ≤ q ∧ ⌊q⌋ < 2 ^ 64 then some ⌊q⌋.toNat else none

/-- Embedding of `struct Column` from `src/lib.rs`. The generator field holds
the (pure, deterministic) result every call to the generator returns. -/
structure Column where
  name : String
  size : Nat
  sql_type : String
  generator : Except String String
deriving DecidableEq

/-- Embedding of `Column::new`. -/
def Column.new (name : String) (size : Nat) (sql_type : String)
    (generator : Except String String) : Column :=
  ⟨name, size, sql_type, generator⟩

/-- Embedding of `struct Table` from `src/lib.rs`. -/
structure Table where
  id_value : String
  columns : List Column
  delimiter : String
  percent_size : ℚ
  row_size_bytes : Nat
deriving DecidableEq

/-- Embedding of `Table::new`: `row_size_bytes` is derived as the sum of the
declared column sizes. -/
def Table.new (id_value : String) (columns : List Column) (delimiter : String)
    (percent_size : ℚ) : Table :=
  { id_value := id_value
    columns := columns
    delimiter := delimiter
    percent_size := percent_size
    row_size_bytes := (columns.map (fun x => x.size)).sum }

/-- Embedding of `Table::generate_table_row`: the id value followed by one
generated value per column, joined by the delimiter, plus a newline. -/
def Table.generate_table_row (t : Table) : Except String String :=
  match collectE (t.columns.map (fun x => x.generator)) with
  | .error e => .error e
  | .ok vals => .ok (joinSep t.delimiter (t.id_value :: vals) ++ "\n")

/-- Embedding of `Table::generate_table_row_vec`. -/
def Table.generate_table_row_vec (t : Table) : Except String (List String) :=
  match collectE (t.columns.map (fun x => x.generator)) with
  | .error e => .error e
  | .ok vals => .ok (t.id_value :: vals)

/-- Embedding of `Table::generate_table`: size the table, divide by the
per-row byte cost (a Rust panic when it is zero), then generate and join
`row_count` rows. -/
def Table.generate_table (t : Table) (file_size_bytes : Nat) :
    RResult String String :=
  match toU64 ((file_size_bytes : ℚ) * t.percent_size) with
  | none => .error "Failed to convert to u64"
  | some table_size_bytes =>
    if t.row_size_bytes = 0 then .panic
    else
      liftE (tryJoinE ((List.range (table_size_bytes / t.row_size_bytes)).map
        (fun _ => t.generate_table_row)))

/-- Embedding of `Table::generate_table_vec`. -/
def Table.generate_table_vec (t : Table) (file_size_bytes : Nat) :
    RResult String (List (List String)) :=
  match toU64 ((file_size_bytes : ℚ) * t.percent_size) with
  | none => .error "Failed to convert to u64"
  | some table_size_bytes =>
    if t.row_size_bytes = 0 then .panic
    else
      liftE (collectE ((List.range (table_size_bytes / t.row_size_bytes)).map
        (fun _ => t.generate_table_row_vec)))

/-- The row count `generate_table` uses after a successful conversion. -/
def Table.rowCount (t : Table) (file_size_bytes : Nat) : Nat :=
  (toU64 ((file_size_bytes : ℚ) * t.percent_size)).getD 0 / t.row_size_bytes

/-- Embedding of `enum ExportFileError`. -/
inductive ExportFileError where
  | SumPercentSizeIncorrect : ℚ → ExportFileError
  | DuplicateColumns : String → String → ExportFileError
  | DuplicateTables : String → ExportFileError
  | TooManyFiles : Nat → ExportFileError
  | ReduceFailed : ExportFileError
deriving DecidableEq

/-- Embedding of `struct ExportFile`. -/
structure ExportFile where
  tables : List Table
  number_of_files : Nat
  file_size_bytes : Nat
deriving DecidableEq

/-- Embedding of `ExportFile::new`: reject `number_of_files >= data_size_bytes`,
derive `file_size_bytes` (a Rust division panic when `number_of_files` is 0),
check every table fits at least one row per file, then check the percent
sizes sum to exactly 1. -/
def ExportFile.new (tables : List Table) (data_size_bytes : Nat)
    (number_of_files : Nat) : RResult ExportFileError ExportFile :=
  if data_size_bytes ≤ number_of_files then
    .error (.TooManyFiles number_of_files)
  else if number_of_files = 0 then .panic
  else
    let file_size_bytes := data_size_bytes / number_of_files
    match tables.map
        (fun x => decide
          ((x.row_size_bytes : ℚ) ≤ (file_size_bytes : ℚ) * x.percent_size)) with
    | [] => .error .ReduceFailed
    | b :: bs =>
      if bs.foldl (fun x y => x && y) b = false then
        .error (.TooManyFiles number_of_files)
      else
        let sum_percent_size : ℚ := (tables.map (fun x => x.percent_size)).sum
        if sum_percent_size ≠ 1 then
          .error (.SumPercentSizeIncorrect sum_percent_size)
        else .ok ⟨tables, number_of_files, file_size_bytes⟩

/-- Embedding of `ExportFile::generate_export`: per-table texts concatenated
in declaration order by the order-preserving try-reduce. -/
def ExportFile.generate_export (e : ExportFile) : RResult String String :=
  tryJoinR (e.tables.map (fun x => x.generate_table e.file_size_bytes))

/-- Embedding of `ExportFile::raw_tables_to_string`: per map entry, iterate
over the `Result` (zero items for `Err`, one for `Ok`), join each row's
fields with the supplied delimiter and concatenate; always returns `Ok`. -/
def ExportFile.raw_tables_to_string
    (tables : List (String × Except String (List (List String))))
    (delimiter : String) : Except String String :=
  .ok (concatStrings (tables.map (fun x =>
    match x.2 with
    | .error _ => ""
    | .ok rows => concatStrings (rows.map (fun z => joinSep delimiter z)))))

/-- Model of `HashMap::contains_key` on an association-list map. -/
def contains_key {α : Type} (m : List (String × α)) (k : String) : Bool :=
  m.any (fun p => p.1 == k)

/-- Inner loop of `ExportFile::build_schema`: walk one table's columns in
order, erroring at the first repeated column name. -/
def buildColumnsAux (table_id : String) :
    List Column → List (String × String) →
    Except ExportFileError (List (String × String))
  | [], acc => .ok acc
  | c :: cs, acc =>
    if contains_key acc c.name then
      .error (.DuplicateColumns table_id c.name)
    else buildColumnsAux table_id cs (acc ++ [(c.name, c.sql_type)])

/-- Outer loop of `ExportFile::build_schema`: walk the tables in order; after
a table's columns are processed, error if its id is already present. -/
def buildSchemaAux :
    List Table → List (String × List (String × String)) →
    Except ExportFileError (List (String × List (String × String)))
  | [], schema => .ok schema
  | t :: ts, schema =>
    match buildColumnsAux t.id_value t.columns [] with
    | .error e => .error e
    | .ok columns =>
      if contains_key schema t.id_value then
        .error (.DuplicateTables t.id_value)
      else buildSchemaAux ts (schema ++ [(t.id_value, columns)])

/-- Embedding of `ExportFile::build_schema` (the `HashMap` is modelled by an
association list; keys are checked for absence before every insertion, so
the map contents coincide). -/
def ExportFile.build_schema (e : ExportFile) :
    Except ExportFileError (List (String × List (String × String))) :=
  buildSchemaAux e.tables []

/-- The name-to-type map `build_schema` produces for one table. -/
def tableColumnsSpec (t : Table) : List (String × String) :=
  t.columns.map (fun c => (c.name, c.sql_type))

/-- The id-to-columns map `build_schema` produces for a table list. -/
def schemaSpec (ts : List Table) : List (String × List (String × String)) :=
  ts.map (fun t => (t.id_value, tableColumnsSpec t))

/-- A split-and-merge tree: one way rayon's fork-join runtime may partition
a list of independent tasks into contiguous chunks. -/
inductive SplitTree (α : Type) where
  | leaf : List α → SplitTree α
  | node : SplitTree α → SplitTree α → SplitTree α

/-- The task list a split tree partitions, in original order. -/
def SplitTree.flatten {α : Type} : SplitTree α → List α
  | .leaf xs => xs
  | .node l r => l.flatten ++ r.flatten

/-- Merge of two adjacent partial row results (order-preserving). -/
def combineE : Except String String → Except String String →
    Except String String
  | .error e, _ => .error e
  | .ok _, .error e => .error e
  | .ok a, .ok b => .ok (a ++ b)

/-- Merge of two adjacent partial table results (order-preserving). -/
def combineR : RResult String String → RResult String String →
    RResult String String
  | .panic, _ => .panic
  | .error e, _ => .error e
  | .ok _, .panic => .panic
  | .ok _, .error e => .error e
  | .ok a, .ok b => .ok (a ++ b)

/-- Row generation of `generate_table` under an explicit split tree: each
leaf chunk is generated and joined, adjacent partials merged in order. -/
def genRowsTree (t : Table) : SplitTree Nat → Except String String
  | .leaf xs => tryJoinE (xs.map (fun _ => t.generate_table_row))
  | .node l r => combineE (genRowsTree t l) (genRowsTree t r)

/-- `Table::generate_table` with its parallel row reduction evaluated over
an explicit split tree. -/
def Table.generate_table_par (t : Table) (file_size_bytes : Nat)
    (tr : SplitTree Nat) : RResult String String :=
  match toU64 ((file_size_bytes : ℚ) * t.percent_size) with
  | none => .error "Failed to convert to u64"
  | some _ =>
    if t.row_size_bytes = 0 then .panic
    else liftE (genRowsTree t tr)

/-- Table-level reduction of `generate_export` under an explicit split tree
of tables, each table using its own row split tree. -/
def genTablesTree (file_size_bytes : Nat) (rs : Table → SplitTree Nat) :
    SplitTree Table → RResult String String
  | .leaf ts =>
    tryJoinR (ts.map (fun t => t.generate_table_par file_size_bytes (rs t)))
  | .node l r =>
    combineR (genTablesTree file_size_bytes rs l)
      (genTablesTree file_size_bytes rs r)

/-- `ExportFile::generate_export` evaluated over explicit split trees: `tt`
partitions the table tasks, `rs` gives each table's row partition. -/
def ExportFile.generate_export_par (e : ExportFile) (tt : SplitTree Table)
    (rs : Table → SplitTree Nat) : RResult String String :=
  genTablesTree e.file_size_bytes rs tt

/-- The column used by the repository's own tests: named `column`, 3 bytes,
type `CHAR[3]`, generator returning `ABC`. -/
def colC : Column := Column.new "column" 3 "CHAR[3]" (Except.ok "ABC")

/-- Test table `A` with one column and percent size 1. -/
def tbl1 : Table := Table.new "A" [colC] "|" 1

/-- A table with no columns: its derived `row_size_bytes` is 0. -/
def tbl0 : Table := Table.new "Z" [] "|" 1

/-- Test table `B` with two columns. -/
def tblB : Table := Table.new "B" [colC, colC] "|" (1 / 2)

/-- Table `A` with percent size one half. -/
def tblHalf : Table := Table.new "A" [colC] "|" (1 / 2)

/-- A table with a repeated column name. -/
def tblDup : Table := Table.new "D" [colC, colC] "|" 1

/-- A second column with a distinct name, for clean-schema tests. -/
def colB : Column := Column.new "columnb" 4 "CHAR[4]" (Except.ok "ABCD")

/-- Test table `B` with one distinctly named column. -/
def tblB2 : Table := Table.new "B" [colB] "|" (1 / 2)

example : tbl1.generate_table_row = Except.ok "A|ABC\n" := by decide
example : ExportFile.new [tblHalf] 1 2 =
    RResult.error (ExportFileError.TooManyFiles 2) := rfl
example : ExportFile.new [] 5 0 = RResult.panic := rfl
example : ExportFile.build_schema ⟨[tblDup], 1, 10⟩ =
    Except.error (ExportFileError.DuplicateColumns "D" "column") := by decide

/-- Evaluation of `toU64` on the cast of a `u64`-sized natural number. -/
lemma toU64_natCast (n : Nat) (h : n < 2 ^ 64) : toU64 ((n : ℚ)) = some n := by
  unfold toU64
  rw [if_pos ⟨by positivity, by rw [Int.floor_natCast]; exact_mod_cast h⟩]
  simp

/-- Evaluation of the sizing conversion for the test table `tbl1` at file
size 10. -/
lemma toU64_tbl1 : toU64 (((10 : Nat) : ℚ) * tbl1.percent_size) = some 10 := by
  have h : (((10 : Nat) : ℚ) * tbl1.percent_size) = ((10 : Nat) : ℚ) := by
    show ((10 : Nat) : ℚ) * 1 = ((10 : Nat) : ℚ)
    norm_num
  rw [h]
  exact toU64_natCast 10 (by norm_num)

example : tbl1.generate_table 10 = RResult.ok "A|ABC\nA|ABC\nA|ABC\n" := by
  rw [Table.generate_table, toU64_tbl1]
  decide

/-- Evaluation of the sizing conversion for the columnless table `tbl0`. -/
lemma toU64_tbl0 : toU64 (((10 : Nat) : ℚ) * tbl0.percent_size) = some 10 := by
  show toU64 (((10 : Nat) : ℚ) * 1) = some 10
  rw [mul_one]
  exact toU64_natCast 10 (by norm_num)

/-- Unfolding of `generate_table` when the decimal conversion succeeds. -/
lemma generate_table_eq_of_conv (t : Table) (fsb tsb : Nat)
    (h : toU64 ((fsb : ℚ) * t.percent_size) = some tsb) :
    t.generate_table fsb =
      if t.row_size_bytes = 0 then .panic
      else
        liftE (tryJoinE ((List.range (tsb / t.row_size_bytes)).map
          (fun _ => t.generate_table_row))) := by
  rw [Table.generate_table, h]

/-- Unfolding of `generate_table` when the decimal conversion fails. -/
lemma generate_table_eq_of_conv_none (t : Table) (fsb : Nat)
    (h : toU64 ((fsb : ℚ) * t.percent_size) = none) :
    t.generate_table fsb = .error "Failed to convert to u64" := by
  rw [Table.generate_table, h]

/-- Unfolding of `generate_table_vec` when the decimal conversion succeeds. -/
lemma generate_table_vec_eq_of_conv (t : Table) (fsb tsb : Nat)
    (h : toU64 ((fsb : ℚ) * t.percent_size) = some tsb) :
    t.generate_table_vec fsb =
      if t.row_size_bytes = 0 then .panic
      else
        liftE (collectE ((List.range (tsb / t.row_size_bytes)).map
          (fun _ => t.generate_table_row_vec))) := by
  rw [Table.generate_table_vec, h]

/-- Unfolding of `generate_table_vec` when the decimal conversion fails. -/
lemma generate_table_vec_eq_of_conv_none (t : Table) (fsb : Nat)
    (h : toU64 ((fsb : ℚ) * t.percent_size) = none) :
    t.generate_table_vec fsb = .error "Failed to convert to u64" := by
  rw [Table.generate_table_vec, h]

/-- A successful `toU64` is the floor of a nonnegative argument. -/
lemma toU64_some (q : ℚ) (n : Nat) (h : toU64 q = some n) :
    0 ≤ q ∧ (n : ℤ) = ⌊q⌋ := by
  unfold toU64 at h
  split_ifs at h with hc
  · refine ⟨hc.1, ?_⟩
    injection h with h2
    rw [← h2, Int.toNat_of_nonneg (Int.floor_nonneg.mpr hc.1)]

/-- `liftE` never produces a panic. -/
lemma liftE_ne_panic {ε α : Type} (x : Except ε α) : liftE x ≠ .panic := by
  cases x <;> simp [liftE]

/-- Joining a nonempty list of identical failing row results fails with
that error. -/
lemma tryJoinE_map_const_error {α : Type} (l : List α) (h : l ≠ []) (e : String) :
    tryJoinE (l.map (fun _ => (Except.error e : Except String String))) =
      .error e := by
  cases l with
  | nil => exact absurd rfl h
  | cons x xs => rfl

/-- Joining identical successful row results succeeds, and every character
occurs once per row in the joined text. -/
lemma tryJoinE_map_const_ok {α : Type} (l : List α) (r : String) :
    ∃ s, tryJoinE (l.map (fun _ => (Except.ok r : Except String String))) =
        .ok s ∧
      ∀ c, s.data.count c = l.length * r.data.count c := by
  induction l with
  | nil =>
    exact ⟨"", rfl, fun c => by
      simp [show ("" : String).data = [] from rfl]⟩
  | cons x xs ih =>
    obtain ⟨s, hs, hc⟩ := ih
    refine ⟨r ++ s, ?_, ?_⟩
    · simp only [List.map_cons, tryJoinE, hs, Except.map]
    · intro c
      rw [String.data_append, List.count_append, hc c, List.length_cons,
        Nat.succ_mul]
      exact Nat.add_comm _ _

/-- A successful `collectE` yields one value per input item. -/
lemma collectE_ok_length {ε α : Type} :
    ∀ (l : List (Except ε α)) (vals : List α),
      collectE l = .ok vals → vals.length = l.length := by
  intro l
  induction l with
  | nil =>
    intro vals h
    injection h with h2
    rw [← h2]
    rfl
  | cons x xs ih =>
    intro vals h
    unfold collectE at h
    cases x with
    | error e => exact absurd h (by simp)
    | ok a =>
      cases hx : collectE xs with
      | error e => rw [hx] at h; exact absurd h (by simp)
      | ok rest =>
        rw [hx] at h
        injection h with h2
        rw [← h2, List.length_cons, List.length_cons, ih rest hx]

/-- A separator-joined nonempty list of fields begins with its first field. -/
lemma joinSep_cons_eq (sep x : String) (xs : List String) :
    ∃ rest, joinSep sep (x :: xs) = x ++ rest := by
  cases xs with
  | nil => exact ⟨"", (String.append_empty x).symm⟩
  | cons y ys =>
    exact ⟨sep ++ joinSep sep (y :: ys), String.append_assoc x sep _⟩

/-- C1: for a table with positive `row_size_bytes` and a file size whose
sized decimal product converts to a `u64` value `tsb`, a successful
`generate_table` returns text with exactly `tsb / row_size_bytes` newlines
(one per generated row, each row contributing exactly its terminating
newline), and `tsb` is the floor of the exact decimal product. -/
theorem c1_generate_table_row_count (t : Table) (fsb tsb : Nat) (s : String)
    (hconv : toU64 ((fsb : ℚ) * t.percent_size) = some tsb)
    (hrs : 0 < t.row_size_bytes)
    (hok : t.generate_table fsb = .ok s)
    (hnl : ∀ r, t.generate_table_row = Except.ok r → r.data.count '\n' = 1) :
    s.data.count '\n' = tsb / t.row_size_bytes ∧
    (tsb : ℤ) = ⌊(fsb : ℚ) * t.percent_size⌋ := by
  refine ⟨?_, (toU64_some _ _ hconv).2⟩
  rw [generate_table_eq_of_conv t fsb tsb hconv,
    if_neg (Nat.pos_iff_ne_zero.mp hrs)] at hok
  cases hr : t.generate_table_row with
  | error e =>
    by_cases hn : tsb / t.row_size_bytes = 0
    · rw [hn, List.range_zero, List.map_nil] at hok
      have hs : s = "" := by
        have h4 : (Except.ok "" : Except String String) = .ok s := by
          simpa [liftE, tryJoinE] using hok
        exact (Except.ok.inj h4).symm
      rw [hs, hn]
      rfl
    · have hne : List.range (tsb / t.row_size_bytes) ≠ [] := by
        simpa [List.range_eq_nil] using hn
      rw [show (List.range (tsb / t.row_size_bytes)).map
            (fun _ => t.generate_table_row) =
          (List.range (tsb / t.row_size_bytes)).map
            (fun _ => (Except.error e : Except String String)) by
          simp only [hr],
        tryJoinE_map_const_error _ hne] at hok
      exact absurd hok (by simp [liftE])
  | ok r =>
    obtain ⟨s2, hs2, hcount⟩ :=
      tryJoinE_map_const_ok (List.range (tsb / t.row_size_bytes)) r
    rw [show (List.range (tsb / t.row_size_bytes)).map
          (fun _ => t.generate_table_row) =
        (List.range (tsb / t.row_size_bytes)).map
          (fun _ => (Except.ok r : Except String String)) by
        simp only [hr],
      hs2] at hok
    have hss : s2 = s := by
      have h4 : (Except.ok s2 : Except String String) = .ok s := by
        simpa [liftE] using hok
      exact Except.ok.inj h4
    rw [← hss, hcount '\n', hnl r hr, List.length_range, Nat.mul_one]

/-- Witness for C1 on the repository's own test table at file size 10. -/
theorem c1_witness :
    ("A|ABC\nA|ABC\nA|ABC\n" : String).data.count '\n' =
      10 / tbl1.row_size_bytes ∧
    ((10 : Nat) : ℤ) = ⌊((10 : Nat) : ℚ) * tbl1.percent_size⌋ :=
  c1_generate_table_row_count tbl1 10 10 "A|ABC\nA|ABC\nA|ABC\n" toU64_tbl1
    (by decide)
    (by rw [Table.generate_table, toU64_tbl1]; decide)
    (by
      intro r h
      have h2 : Except.ok "A|ABC\n" = Except.ok r := h
      injection h2 with h3
      rw [← h3]
      decide)

/-- C4: when every column generator succeeds, `generate_table_row` returns
the id value followed by exactly one generated value per column in declared
order, joined by the delimiter and terminated by a newline. -/
theorem c4_row_format (t : Table) (vals : List String)
    (hgen : collectE (t.columns.map (fun x => x.generator)) = Except.ok vals) :
    t.generate_table_row =
      Except.ok (joinSep t.delimiter (t.id_value :: vals) ++ "\n") ∧
    vals.length = t.columns.length := by
  constructor
  · rw [Table.generate_table_row, hgen]
  · rw [collectE_ok_length _ _ hgen, List.length_map]

/-- Witness for C4 on the two-column test table. -/
theorem c4_witness :
    tblB.generate_table_row =
      Except.ok (joinSep tblB.delimiter (tblB.id_value :: ["ABC", "ABC"]) ++
        "\n") ∧
    (["ABC", "ABC"] : List String).length = tblB.columns.length :=
  c4_row_format tblB ["ABC", "ABC"] (by decide)

/-- C5: `Table::new` derives `row_size_bytes` as the sum of the declared
column sizes alone; the value is independent of `id_value` and `delimiter`,
even though every successfully generated row starts with `id_value`. -/
theorem c5_row_size_excludes_id (id_value : String) (columns : List Column)
    (delimiter : String) (percent : ℚ) :
    (Table.new id_value columns delimiter percent).row_size_bytes =
      (columns.map (fun x => x.size)).sum ∧
    (∀ id2 delim2 p2, (Table.new id2 columns delim2 p2).row_size_bytes =
      (Table.new id_value columns delimiter percent).row_size_bytes) ∧
    (∀ r, (Table.new id_value columns delimiter percent).generate_table_row =
        Except.ok r → ∃ rest, r = id_value ++ rest) := by
  refine ⟨rfl, fun _ _ _ => rfl, ?_⟩
  intro r h
  rw [Table.generate_table_row] at h
  cases hx : collectE (((Table.new id_value columns delimiter
      percent)).columns.map (fun x => x.generator)) with
  | error e => rw [hx] at h; exact absurd h (by simp)
  | ok vals =>
    rw [hx] at h
    injection h with h2
    obtain ⟨rest0, hr0⟩ := joinSep_cons_eq delimiter id_value vals
    exact ⟨rest0 ++ "\n", by
      rw [← h2]
      show joinSep delimiter (id_value :: vals) ++ "\n" = _
      rw [hr0, String.append_assoc]⟩

/-- Witness for C5 on the test column list. -/
theorem c5_witness :
    (Table.new "A" [colC] "|" 1).row_size_bytes =
      (([colC] : List Column).map (fun x => x.size)).sum ∧
    (∀ id2 delim2 p2, (Table.new id2 [colC] delim2 p2).row_size_bytes =
      (Table.new "A" [colC] "|" 1).row_size_bytes) ∧
    (∀ r, (Table.new "A" [colC] "|" 1).generate_table_row =
        Except.ok r → ∃ rest, r = "A" ++ rest) :=
  c5_row_size_excludes_id "A" [colC] "|" 1

/-- C6: the row-count division in `generate_table` and `generate_table_vec`
is unguarded: once the decimal conversion succeeds, a zero `row_size_bytes`
reaches the division by zero (a panic), while a positive `row_size_bytes`
makes the panic unreachable. -/
theorem c6_division_unguarded (t : Table) (fsb : Nat) :
    (t.row_size_bytes = 0 →
      (∃ n, toU64 ((fsb : ℚ) * t.percent_size) = some n) →
      t.generate_table fsb = .panic ∧ t.generate_table_vec fsb = .panic) ∧
    (0 < t.row_size_bytes →
      t.generate_table fsb ≠ .panic ∧ t.generate_table_vec fsb ≠ .panic) := by
  constructor
  · rintro h0 ⟨n, hconv⟩
    constructor
    · rw [generate_table_eq_of_conv t fsb n hconv, if_pos h0]
    · rw [generate_table_vec_eq_of_conv t fsb n hconv, if_pos h0]
  · intro hpos
    constructor
    · cases hc : toU64 ((fsb : ℚ) * t.percent_size) with
      | none => rw [generate_table_eq_of_conv_none t fsb hc]; simp
      | some n =>
        rw [generate_table_eq_of_conv t fsb n hc,
          if_neg (Nat.pos_iff_ne_zero.mp hpos)]
        exact liftE_ne_panic _
    · cases hc : toU64 ((fsb : ℚ) * t.percent_size) with
      | none => rw [generate_table_vec_eq_of_conv_none t fsb hc]; simp
      | some n =>
        rw [generate_table_vec_eq_of_conv t fsb n hc,
          if_neg (Nat.pos_iff_ne_zero.mp hpos)]
        exact liftE_ne_panic _

/-- Witness for C6: the columnless table panics at file size 10; the
repository's test table cannot panic there. -/
theorem c6_witness :
    (tbl0.generate_table 10 = RResult.panic ∧
      tbl0.generate_table_vec 10 = RResult.panic) ∧
    (tbl1.generate_table 10 ≠ RResult.panic ∧
      tbl1.generate_table_vec 10 ≠ RResult.panic) :=
  ⟨(c6_division_unguarded tbl0 10).1 rfl ⟨10, toU64_tbl0⟩,
   (c6_division_unguarded tbl1 10).2 (by decide)⟩

/-- C9: with `number_of_files = 0` and a positive `data_size_bytes`, the
`TooManyFiles` guard does not fire and `ExportFile::new` reaches the
division by zero, a panic rather than an error. -/
theorem c9_zero_files_panics (tables : List Table) (dsb : Nat)
    (h : 0 < dsb) :
    ExportFile.new tables dsb 0 = .panic := by
  rw [ExportFile.new, if_neg (Nat.not_le.mpr h), if_pos rfl]

/-- Witness for C9 at `data_size_bytes = 5`. -/
theorem c9_witness : ExportFile.new [tbl1] 5 0 = RResult.panic :=
  c9_zero_files_panics [tbl1] 5 (by decide)

/-- Rust's `Iterator::reduce` with `&&` over a nonempty boolean list is the
conjunction of all elements. -/
lemma foldl_and_eq_all (bs : List Bool) (b : Bool) :
    bs.foldl (fun x y => x && y) b = (b && bs.all (fun y => y)) := by
  induction bs generalizing b with
  | nil => simp
  | cons c cs ih => rw [List.foldl_cons, ih, List.all_cons, Bool.and_assoc]

/-- `ExportFile::new` on an empty table list, past the file-count check:
the feasibility reduction has nothing to reduce. -/
lemma new_eq_nil (dsb nof : Nat) (h1 : ¬ dsb ≤ nof) (h0 : nof ≠ 0) :
    ExportFile.new [] dsb nof = .error .ReduceFailed := by
  rw [ExportFile.new, if_neg h1, if_neg h0]
  rfl

/-- `ExportFile::new` on a nonempty table list, past the file-count check:
the feasibility check, then the percent-sum check. -/
lemma new_eq_cons (t : Table) (ts : List Table) (dsb nof : Nat)
    (h1 : ¬ dsb ≤ nof) (h0 : nof ≠ 0) :
    ExportFile.new (t :: ts) dsb nof =
      if ∀ x ∈ t :: ts, (x.row_size_bytes : ℚ) ≤
          ((dsb / nof : Nat) : ℚ) * x.percent_size then
        (if ((t :: ts).map (fun x => x.percent_size)).sum ≠ 1 then
          .error (.SumPercentSizeIncorrect
            (((t :: ts).map (fun x => x.percent_size)).sum))
        else .ok ⟨t :: ts, nof, dsb / nof⟩)
      else .error (.TooManyFiles nof) := by
  simp only [ExportFile.new, if_neg h1, if_neg h0, List.map_cons]
  rw [foldl_and_eq_all]
  have key : (decide ((t.row_size_bytes : ℚ) ≤
        ((dsb / nof : Nat) : ℚ) * t.percent_size) &&
      (ts.map (fun x => decide ((x.row_size_bytes : ℚ) ≤
        ((dsb / nof : Nat) : ℚ) * x.percent_size))).all (fun y => y)) = true ↔
      ∀ x ∈ t :: ts, (x.row_size_bytes : ℚ) ≤
        ((dsb / nof : Nat) : ℚ) * x.percent_size := by
    simp [List.all_map, List.all_eq_true]
  by_cases hQ : ∀ x ∈ t :: ts, (x.row_size_bytes : ℚ) ≤
      ((dsb / nof : Nat) : ℚ) * x.percent_size
  · rw [if_pos hQ, key.mpr hQ]
    rw [if_neg (by simp)]
  · rw [if_neg hQ,
      if_pos (Bool.eq_false_iff.mpr (fun hb => hQ (key.mp hb)))]

/-- C2: given at least one file, `ExportFile::new` fails with `TooManyFiles`
exactly when the file count reaches the data size, or some table's per-file
decimal allotment is strictly below its per-row byte cost. -/
theorem c2_too_many_files_iff (tables : List Table) (dsb nof : Nat)
    (h : 0 < nof) :
    ExportFile.new tables dsb nof = .error (.TooManyFiles nof) ↔
      (dsb ≤ nof ∨ ∃ t ∈ tables,
        ((dsb / nof : Nat) : ℚ) * t.percent_size < (t.row_size_bytes : ℚ)) := by
  by_cases h1 : dsb ≤ nof
  · rw [ExportFile.new, if_pos h1]
    simp [h1]
  · cases tables with
    | nil =>
      rw [new_eq_nil dsb nof h1 (Nat.pos_iff_ne_zero.mp h)]
      simp [h1]
    | cons t ts =>
      rw [new_eq_cons t ts dsb nof h1 (Nat.pos_iff_ne_zero.mp h)]
      by_cases hQ : ∀ x ∈ t :: ts, (x.row_size_bytes : ℚ) ≤
          ((dsb / nof : Nat) : ℚ) * x.percent_size
      · rw [if_pos hQ]
        constructor
        · intro hcontra
          by_cases hsum : ((t :: ts).map (fun x => x.percent_size)).sum ≠ 1
          · rw [if_pos hsum] at hcontra
            exact absurd hcontra (by simp)
          · rw [if_neg hsum] at hcontra
            exact absurd hcontra (by simp)
        · rintro (hd | ⟨x, hx, hlt⟩)
          · exact absurd hd h1
          · exact absurd (hQ x hx) (not_le.mpr hlt)
      · rw [if_neg hQ]
        push_neg at hQ
        obtain ⟨x, hx, hlt⟩ := hQ
        constructor
        · intro _
          exact Or.inr ⟨x, hx, hlt⟩
        · intro _
          rfl

/-- Witness for C2 at an empty table list with two files and five bytes. -/
theorem c2_witness :
    ExportFile.new [] 5 2 = .error (.TooManyFiles 2) ↔
      ((5 : Nat) ≤ 2 ∨ ∃ t ∈ ([] : List Table),
        ((5 / 2 : Nat) : ℚ) * t.percent_size < (t.row_size_bytes : ℚ)) :=
  c2_too_many_files_iff [] 5 2 (by decide)

/-- Counterexample for C3 as stated: with one table of percent size one
half, one data byte and two files, the percent sizes do not sum to 1 yet
construction fails with `TooManyFiles`, not `SumPercentSizeIncorrect` (the
file-count check fires first). -/
theorem c3_counterexample :
    (([tblHalf].map (fun x => x.percent_size)).sum ≠ 1) ∧
    ExportFile.new [tblHalf] 1 2 = .error (.TooManyFiles 2) ∧
    ExportFile.new [tblHalf] 1 2 ≠
      .error (.SumPercentSizeIncorrect
        (([tblHalf].map (fun x => x.percent_size)).sum)) := by
  refine ⟨?_, rfl, ?_⟩
  · simp only [List.map_cons, List.map_nil, List.sum_cons, List.sum_nil,
      add_zero]
    show (1 : ℚ) / 2 ≠ 1
    norm_num
  · intro hcontra
    exact absurd
      (show RResult.error (ExportFileError.TooManyFiles 2) =
          RResult.error (ε := ExportFileError) (α := ExportFile)
            (.SumPercentSizeIncorrect
              (([tblHalf].map (fun x => x.percent_size)).sum))
        from hcontra)
      (by simp)

/-- C3 amended: when the earlier construction checks pass (at least one
file, fewer files than data bytes, a nonempty table list whose every table
fits one row per file), a percent-size sum different from 1 fails with
`SumPercentSizeIncorrect` carrying that sum, and a sum of exactly 1
succeeds. -/
theorem c3_sum_percent_amended (tables : List Table) (dsb nof : Nat)
    (h0 : 0 < nof) (h1 : nof < dsb) (h2 : tables ≠ [])
    (h3 : ∀ t ∈ tables, (t.row_size_bytes : ℚ) ≤
      ((dsb / nof : Nat) : ℚ) * t.percent_size) :
    ((tables.map (fun x => x.percent_size)).sum ≠ 1 →
      ExportFile.new tables dsb nof =
        .error (.SumPercentSizeIncorrect
          ((tables.map (fun x => x.percent_size)).sum))) ∧
    ((tables.map (fun x => x.percent_size)).sum = 1 →
      ExportFile.new tables dsb nof = .ok ⟨tables, nof, dsb / nof⟩) := by
  cases tables with
  | nil => exact absurd rfl h2
  | cons t ts =>
    rw [new_eq_cons t ts dsb nof (not_le.mpr h1)
      (Nat.pos_iff_ne_zero.mp h0), if_pos h3]
    constructor
    · intro hsum
      rw [if_pos hsum]
    · intro hsum
      rw [if_neg (not_not_intro hsum)]

/-- Witness for C3 on the repository's test table with percent size 1. -/
theorem c3_witness :
    (([tbl1].map (fun x => x.percent_size)).sum ≠ 1 →
      ExportFile.new [tbl1] 10 1 =
        .error (.SumPercentSizeIncorrect
          (([tbl1].map (fun x => x.percent_size)).sum))) ∧
    (([tbl1].map (fun x => x.percent_size)).sum = 1 →
      ExportFile.new [tbl1] 10 1 = .ok ⟨[tbl1], 1, 10 / 1⟩) :=
  c3_sum_percent_amended [tbl1] 10 1 (by decide) (by decide) (by simp)
    (by
      intro x hx
      rw [List.mem_singleton] at hx
      subst hx
      show ((3 : Nat) : ℚ) ≤ ((10 / 1 : Nat) : ℚ) * 1
      norm_num)

/-- `contains_key` decides membership among the map's keys. -/
lemma contains_key_eq_true {α : Type} (m : List (String × α)) (k : String) :
    contains_key m k = true ↔ k ∈ m.map Prod.fst := by
  simp [contains_key, List.any_eq_true, List.mem_map]

/-- In a duplicate-free catenation, the element starting the right part does
not occur in the left part. -/
lemma nodup_append_head_notin {A : List String} {x : String} {B : List String}
    (h : (A ++ x :: B).Nodup) : x ∉ A := by
  rcases List.nodup_append.mp h with ⟨_, _, hdisj⟩
  intro hx
  exact hdisj hx (List.mem_cons_self x B)

/-- The column walk succeeds when the accumulated keys and remaining column
names are duplicate-free, appending one entry per column in order. -/
lemma buildColumnsAux_ok (tid : String) :
    ∀ (cs : List Column) (acc : List (String × String)),
      (acc.map Prod.fst ++ cs.map (fun x => x.name)).Nodup →
      buildColumnsAux tid cs acc =
        .ok (acc ++ cs.map (fun x => (x.name, x.sql_type))) := by
  intro cs
  induction cs with
  | nil =>
    intro acc _
    simp [buildColumnsAux]
  | cons c cs ih =>
    intro acc h
    have hnotin : c.name ∉ acc.map Prod.fst :=
      nodup_append_head_notin h
    rw [buildColumnsAux,
      if_neg (fun hc => hnotin ((contains_key_eq_true _ _).mp hc)),
      ih (acc ++ [(c.name, c.sql_type)]) (by
        simp only [List.map_cons] at h
        rw [List.append_cons] at h
        simpa [List.map_append] using h)]
    simp

/-- The column walk reports the first repeated column name: if the names
before `c` are duplicate-free (relative to the accumulator) and `c` repeats
one of them, the walk errors at `c`, whatever follows. -/
lemma buildColumnsAux_dup (tid : String) :
    ∀ (cs1 : List Column) (c : Column) (cs2 : List Column)
      (acc : List (String × String)),
      (acc.map Prod.fst ++ cs1.map (fun x => x.name)).Nodup →
      c.name ∈ acc.map Prod.fst ++ cs1.map (fun x => x.name) →
      buildColumnsAux tid (cs1 ++ c :: cs2) acc =
        .error (.DuplicateColumns tid c.name) := by
  intro cs1
  induction cs1 with
  | nil =>
    intro c cs2 acc _ hmem
    simp only [List.map_nil, List.append_nil] at hmem
    rw [List.nil_append, buildColumnsAux,
      if_pos ((contains_key_eq_true _ _).mpr hmem)]
  | cons d cs1 ih =>
    intro c cs2 acc h hmem
    have hdnotin : d.name ∉ acc.map Prod.fst :=
      nodup_append_head_notin h
    rw [List.cons_append, buildColumnsAux,
      if_neg (fun hc => hdnotin ((contains_key_eq_true _ _).mp hc))]
    refine ih c cs2 (acc ++ [(d.name, d.sql_type)]) ?_ ?_
    · simp only [List.map_cons] at h
      rw [List.append_cons] at h
      simpa [List.map_append] using h
    · simp only [List.map_cons] at hmem
      rw [List.append_cons] at hmem
      simpa [List.map_append] using hmem

/-- The column walk from an empty accumulator on duplicate-free names. -/
lemma buildColumns_ok0 (tid : String) (cs : List Column)
    (h : (cs.map (fun x => x.name)).Nodup) :
    buildColumnsAux tid cs [] = .ok (cs.map (fun x => (x.name, x.sql_type))) := by
  simpa using buildColumnsAux_ok tid cs [] (by simpa using h)

/-- One table step of the schema walk when its columns processed cleanly. -/
lemma buildSchemaAux_cons_ok (t : Table) (ts : List Table)
    (sch : List (String × List (String × String)))
    (cols : List (String × String))
    (h : buildColumnsAux t.id_value t.columns [] = .ok cols) :
    buildSchemaAux (t :: ts) sch =
      if contains_key sch t.id_value then
        .error (.DuplicateTables t.id_value)
      else buildSchemaAux ts (sch ++ [(t.id_value, cols)]) := by
  rw [buildSchemaAux, h]

/-- One table step of the schema walk when its column walk errors. -/
lemma buildSchemaAux_cons_err (t : Table) (ts : List Table)
    (sch : List (String × List (String × String))) (e : ExportFileError)
    (h : buildColumnsAux t.id_value t.columns [] = .error e) :
    buildSchemaAux (t :: ts) sch = .error e := by
  rw [buildSchemaAux, h]

/-- The keys of the produced schema are the table ids, in order. -/
lemma schemaSpec_keys (ts : List Table) :
    (schemaSpec ts).map Prod.fst = ts.map (fun u => u.id_value) := by
  simp [schemaSpec]

/-- Processing a clean prefix of tables only extends the accumulator. -/
lemma buildSchemaAux_pre :
    ∀ (ts1 rest : List Table) (sch : List (String × List (String × String))),
      (∀ u ∈ ts1, (u.columns.map (fun x => x.name)).Nodup) →
      (sch.map Prod.fst ++ ts1.map (fun u => u.id_value)).Nodup →
      buildSchemaAux (ts1 ++ rest) sch =
        buildSchemaAux rest (sch ++ schemaSpec ts1) := by
  intro ts1
  induction ts1 with
  | nil =>
    intro rest sch _ _
    simp [schemaSpec]
  | cons t ts ih =>
    intro rest sch hcols hids
    have hnotin : t.id_value ∉ sch.map Prod.fst :=
      nodup_append_head_notin hids
    rw [List.cons_append,
      buildSchemaAux_cons_ok t (ts ++ rest) sch (tableColumnsSpec t)
        (buildColumns_ok0 t.id_value t.columns (hcols t (by simp))),
      if_neg (fun hc => hnotin ((contains_key_eq_true _ _).mp hc)),
      ih rest (sch ++ [(t.id_value, tableColumnsSpec t)])
        (fun u hu => hcols u (List.mem_cons_of_mem t hu))
        (by
          simp only [List.map_cons] at hids
          rw [List.append_cons] at hids
          simpa [List.map_append] using hids)]
    simp [schemaSpec, tableColumnsSpec]

/-- C7: `build_schema` succeeds on duplicate-free schemas producing the
id-to-columns mapping in declaration order; it errors at the first repeated
column name inside a table (later columns unprocessed, and before the
table-id check); and a repeated table id whose columns are clean errors
with `DuplicateTables` only after those columns are processed. -/
theorem c7_build_schema (nf fs : Nat) :
    (∀ ts : List Table,
      (∀ u ∈ ts, (u.columns.map (fun x => x.name)).Nodup) →
      (ts.map (fun u => u.id_value)).Nodup →
      (ExportFile.mk ts nf fs).build_schema = .ok (schemaSpec ts)) ∧
    (∀ (ts1 : List Table) (t : Table) (ts2 : List Table)
      (cs1 : List Column) (c : Column) (cs2 : List Column),
      (∀ u ∈ ts1, (u.columns.map (fun x => x.name)).Nodup) →
      (ts1.map (fun u => u.id_value)).Nodup →
      t.columns = cs1 ++ c :: cs2 →
      (cs1.map (fun x => x.name)).Nodup →
      c.name ∈ cs1.map (fun x => x.name) →
      (ExportFile.mk (ts1 ++ t :: ts2) nf fs).build_schema =
        .error (.DuplicateColumns t.id_value c.name)) ∧
    (∀ (ts1 : List Table) (t : Table) (ts2 : List Table),
      (∀ u ∈ ts1, (u.columns.map (fun x => x.name)).Nodup) →
      (ts1.map (fun u => u.id_value)).Nodup →
      (t.columns.map (fun x => x.name)).Nodup →
      t.id_value ∈ ts1.map (fun u => u.id_value) →
      (ExportFile.mk (ts1 ++ t :: ts2) nf fs).build_schema =
        .error (.DuplicateTables t.id_value)) := by
  refine ⟨?_, ?_, ?_⟩
  · intro ts hcols hids
    show buildSchemaAux ts [] = .ok (schemaSpec ts)
    have h := buildSchemaAux_pre ts [] [] hcols (by simpa using hids)
    rw [List.append_nil] at h
    rw [h, buildSchemaAux]
    simp
  · intro ts1 t ts2 cs1 c cs2 hcols hids hsplit hcs1 hcmem
    show buildSchemaAux (ts1 ++ t :: ts2) [] =
      .error (.DuplicateColumns t.id_value c.name)
    rw [buildSchemaAux_pre ts1 (t :: ts2) [] hcols (by simpa using hids)]
    refine buildSchemaAux_cons_err t ts2 _ _ ?_
    rw [hsplit]
    exact buildColumnsAux_dup t.id_value cs1 c cs2 []
      (by simpa using hcs1) (by simpa using hcmem)
  · intro ts1 t ts2 hcols hids hclean hidmem
    show buildSchemaAux (ts1 ++ t :: ts2) [] =
      .error (.DuplicateTables t.id_value)
    rw [buildSchemaAux_pre ts1 (t :: ts2) [] hcols (by simpa using hids),
      buildSchemaAux_cons_ok t ts2 _ (t.columns.map (fun x => (x.name, x.sql_type)))
        (buildColumns_ok0 t.id_value t.columns hclean),
      if_pos ((contains_key_eq_true _ _).mpr (by
        rw [List.nil_append, schemaSpec_keys]
        exact hidmem))]

/-- Witness for C7: a clean two-table schema succeeds; a repeated column
name errors with `DuplicateColumns`; a repeated table id errors with
`DuplicateTables`. -/
theorem c7_witness :
    (ExportFile.mk [tbl1, tblB2] 1 10).build_schema =
      .ok (schemaSpec [tbl1, tblB2]) ∧
    (ExportFile.mk [tblDup] 1 10).build_schema =
      .error (.DuplicateColumns "D" "column") ∧
    (ExportFile.mk [tbl1, tbl1] 1 10).build_schema =
      .error (.DuplicateTables "A") := by
  obtain ⟨p1, p2, p3⟩ := c7_build_schema 1 10
  refine ⟨p1 [tbl1, tblB2] (by decide) (by decide), ?_, ?_⟩
  · exact p2 [] tblDup [] [colC] colC [] (by simp) (by simp) rfl
      (by decide) (by decide)
  · exact p3 [tbl1] tbl1 [] (by decide) (by decide) (by decide) (by decide)

/-- Concatenation distributes over list append. -/
lemma concatStrings_append (l1 l2 : List String) :
    concatStrings (l1 ++ l2) = concatStrings l1 ++ concatStrings l2 := by
  induction l1 with
  | nil => simp [concatStrings]
  | cons x xs ih => simp [concatStrings, ih, String.append_assoc]

/-- C10: `raw_tables_to_string` returns `Ok` on every input mapping and
delimiter, and an entry holding an `Err` contributes nothing: deleting it
leaves the flattened text unchanged, so the recorded failure is invisible. -/
theorem c10_raw_tables_silently_skips_errors
    (tables : List (String × Except String (List (List String))))
    (delimiter : String)
    (pre post : List (String × Except String (List (List String))))
    (k err : String) :
    (∃ s, ExportFile.raw_tables_to_string tables delimiter = Except.ok s) ∧
    ExportFile.raw_tables_to_string (pre ++ (k, Except.error err) :: post)
        delimiter =
      ExportFile.raw_tables_to_string (pre ++ post) delimiter := by
  refine ⟨⟨_, rfl⟩, ?_⟩
  rw [ExportFile.raw_tables_to_string, ExportFile.raw_tables_to_string]
  congr 1
  rw [List.map_append, List.map_append, List.map_cons]
  rw [concatStrings_append, concatStrings_append]
  congr 1

/-- The try-reduce over `Result` splits along list append as the
order-preserving merge of the two partial results. -/
lemma tryJoinE_append (l1 l2 : List (Except String String)) :
    tryJoinE (l1 ++ l2) = combineE (tryJoinE l1) (tryJoinE l2) := by
  induction l1 with
  | nil =>
    cases h : tryJoinE l2 with
    | error e => simp [tryJoinE, combineE, h]
    | ok b => simp [tryJoinE, combineE, h]
  | cons x xs ih =>
    cases x with
    | error e => simp [tryJoinE, combineE]
    | ok a =>
      rw [List.cons_append]
      simp only [tryJoinE, ih]
      cases h1 : tryJoinE xs <;> cases h2 : tryJoinE l2 <;>
        simp [combineE, Except.map, String.append_assoc]

/-- The panic-aware try-reduce splits along list append the same way. -/
lemma tryJoinR_append (l1 l2 : List (RResult String String)) :
    tryJoinR (l1 ++ l2) = combineR (tryJoinR l1) (tryJoinR l2) := by
  induction l1 with
  | nil =>
    cases h : tryJoinR l2 with
    | panic => simp [tryJoinR, combineR, h]
    | error e => simp [tryJoinR, combineR, h]
    | ok b => simp [tryJoinR, combineR, h]
  | cons x xs ih =>
    cases x with
    | panic => simp [tryJoinR, combineR]
    | error e => simp [tryJoinR, combineR]
    | ok a =>
      rw [List.cons_append]
      simp only [tryJoinR, ih]
      cases h1 : tryJoinR xs <;> cases h2 : tryJoinR l2 <;>
        simp [combineR, RResult.map, String.append_assoc]

/-- Any split tree evaluates the row tasks as the flat in-order reduce. -/
lemma genRowsTree_eq (t : Table) (tr : SplitTree Nat) :
    genRowsTree t tr =
      tryJoinE (tr.flatten.map (fun _ => t.generate_table_row)) := by
  induction tr with
  | leaf xs => rfl
  | node l r ihl ihr =>
    rw [genRowsTree, ihl, ihr, SplitTree.flatten, List.map_append,
      tryJoinE_append]

/-- Unfolding of `generate_table_par` when the conversion succeeds. -/
lemma generate_table_par_eq_of_conv (t : Table) (fsb tsb : Nat)
    (tr : SplitTree Nat)
    (h : toU64 ((fsb : ℚ) * t.percent_size) = some tsb) :
    t.generate_table_par fsb tr =
      if t.row_size_bytes = 0 then .panic
      else liftE (genRowsTree t tr) := by
  rw [Table.generate_table_par, h]

/-- Unfolding of `generate_table_par` when the conversion fails. -/
lemma generate_table_par_eq_of_conv_none (t : Table) (fsb : Nat)
    (tr : SplitTree Nat)
    (h : toU64 ((fsb : ℚ) * t.percent_size) = none) :
    t.generate_table_par fsb tr = .error "Failed to convert to u64" := by
  rw [Table.generate_table_par, h]

/-- A split tree that partitions exactly the row index range computes the
same result as the sequential `generate_table`. -/
lemma generate_table_par_eq (t : Table) (fsb : Nat) (tr : SplitTree Nat)
    (h : tr.flatten = List.range (t.rowCount fsb)) :
    t.generate_table_par fsb tr = t.generate_table fsb := by
  cases hc : toU64 ((fsb : ℚ) * t.percent_size) with
  | none =>
    rw [generate_table_par_eq_of_conv_none t fsb tr hc,
      generate_table_eq_of_conv_none t fsb hc]
  | some tsb =>
    rw [generate_table_par_eq_of_conv t fsb tsb tr hc,
      generate_table_eq_of_conv t fsb tsb hc]
    by_cases h0 : t.row_size_bytes = 0
    · rw [if_pos h0, if_pos h0]
    · rw [if_neg h0, if_neg h0]
      congr 1
      rw [genRowsTree_eq, h]
      have hrc : t.rowCount fsb = tsb / t.row_size_bytes := by
        rw [Table.rowCount, hc]
        rfl
      rw [hrc]

/-- Any split tree evaluates the table tasks as the flat in-order reduce. -/
lemma genTablesTree_eq (fsb : Nat) (rs : Table → SplitTree Nat)
    (tt : SplitTree Table) :
    genTablesTree fsb rs tt =
      tryJoinR (tt.flatten.map (fun t => t.generate_table_par fsb (rs t))) := by
  induction tt with
  | leaf ts => rfl
  | node l r ihl ihr =>
    rw [genTablesTree, ihl, ihr, SplitTree.flatten, List.map_append,
      tryJoinR_append]

/-- C8: on an export whose sequential generation succeeds with text `s`
(generators are pure constants in this model), every fork-join schedule —
any split tree over the table tasks and any per-table split tree over its
row index range — produces the same text `s`; in particular any two calls
to `generate_export` agree byte for byte. -/
theorem c8_generate_export_deterministic (e : ExportFile) (s : String)
    (tt1 tt2 : SplitTree Table) (rs1 rs2 : Table → SplitTree Nat)
    (hok : e.generate_export = .ok s)
    (ht1 : tt1.flatten = e.tables) (ht2 : tt2.flatten = e.tables)
    (hr1 : ∀ t ∈ e.tables,
      (rs1 t).flatten = List.range (t.rowCount e.file_size_bytes))
    (hr2 : ∀ t ∈ e.tables,
      (rs2 t).flatten = List.range (t.rowCount e.file_size_bytes)) :
    e.generate_export_par tt1 rs1 = .ok s ∧
    e.generate_export_par tt2 rs2 = .ok s := by
  have key : ∀ (tt : SplitTree Table) (rs : Table → SplitTree Nat),
      tt.flatten = e.tables →
      (∀ t ∈ e.tables,
        (rs t).flatten = List.range (t.rowCount e.file_size_bytes)) →
      e.generate_export_par tt rs = e.generate_export := by
    intro tt rs ht hr
    show genTablesTree e.file_size_bytes rs tt = e.generate_export
    rw [genTablesTree_eq, ht]
    show tryJoinR (e.tables.map
        (fun t => t.generate_table_par e.file_size_bytes (rs t))) =
      tryJoinR (e.tables.map (fun x => x.generate_table e.file_size_bytes))
    congr 1
    apply List.map_congr_left
    intro t htmem
    exact generate_table_par_eq t e.file_size_bytes (rs t) (hr t htmem)
  exact ⟨(key tt1 rs1 ht1 hr1).trans hok, (key tt2 rs2 ht2 hr2).trans hok⟩

/-- Evaluation of `generate_table` on the test table at file size 10. -/
lemma tbl1_generate_table_eval :
    tbl1.generate_table 10 = RResult.ok "A|ABC\nA|ABC\nA|ABC\n" := by
  rw [Table.generate_table, toU64_tbl1]
  decide

/-- Evaluation of the row count of the test table at file size 10. -/
lemma tbl1_rowCount : tbl1.rowCount 10 = 3 := by
  rw [Table.rowCount, toU64_tbl1]
  rfl

/-- Witness for C8: two different fork-join schedules of the one-table test
export both produce the sequential text. -/
theorem c8_witness :
    (ExportFile.mk [tbl1] 1 10).generate_export_par (SplitTree.leaf [tbl1])
        (fun _ => SplitTree.leaf [0, 1, 2]) =
      .ok "A|ABC\nA|ABC\nA|ABC\n" ∧
    (ExportFile.mk [tbl1] 1 10).generate_export_par
        (SplitTree.node (SplitTree.leaf []) (SplitTree.leaf [tbl1]))
        (fun _ => SplitTree.node (SplitTree.leaf [0]) (SplitTree.leaf [1, 2])) =
      .ok "A|ABC\nA|ABC\nA|ABC\n" :=
  c8_generate_export_deterministic (ExportFile.mk [tbl1] 1 10)
    "A|ABC\nA|ABC\nA|ABC\n"
    (SplitTree.leaf [tbl1])
    (SplitTree.node (SplitTree.leaf []) (SplitTree.leaf [tbl1]))
    (fun _ => SplitTree.leaf [0, 1, 2])
    (fun _ => SplitTree.node (SplitTree.leaf [0]) (SplitTree.leaf [1, 2]))
    (by
      show tryJoinR ([tbl1].map (fun x => x.generate_table 10)) =
        .ok "A|ABC\nA|ABC\nA|ABC\n"
      rw [List.map_cons, List.map_nil, tbl1_generate_table_eval]
      decide)
    rfl rfl
    (by
      intro t ht
      rw [List.mem_singleton] at ht
      subst ht
      rw [tbl1_rowCount]
      decide)
    (by
      intro t ht
      rw [List.mem_singleton] at ht
      subst ht
      rw [tbl1_rowCount]
      decide)
